import Mathlib

/-!
# Verification of the flocking-visualization analysis core

Shallow embedding of the numeric core of `plots/visualize_birds_sphere.py`
(trajectory reconstruction, order-parameter computation, distance statistics,
frame subsampling) together with theorems checking the specification's
testable properties against it.

Floating-point values are modelled as exact reals; numpy's NaN (which `np.mean`
produces on an empty axis) is modelled as `Option.none`.
-/

open scoped RealInnerProductSpace

/-- A 3-component vector, mirroring the `{x, y, z}` objects of the export. -/
structure Vec3 where
  x : ℝ
  y : ℝ
  z : ℝ

/-- One agent at one instant: `{"position": {x,y,z}, "velocity": {x,y,z}}`. -/
structure BirdState where
  position : Vec3
  velocity : Vec3

/-- One snapshot: `{"step": int, "timestamp": float, "birds": [...]}`. -/
structure Frame where
  step : ℤ
  timestamp : ℝ
  birds : List BirdState

instance : Inhabited Frame := ⟨⟨0, 0, []⟩⟩

/-- The `parameters` object of the export document. -/
structure Parameters where
  num_birds : ℕ
  radius : ℝ
  speed : ℝ
  dt : ℝ
  interaction_radius : ℝ
  eta : ℝ
  iterations : ℕ

/-- A parsed simulation export: `parameters` plus the ordered frame list.
(The `metadata` object is read only for plot titles and carries no numeric
content, so it is omitted from the embedding.) -/
structure SimulationData where
  parameters : Parameters
  frames : List Frame

/-- Error taxonomy: the spec's three load/analysis failures plus the Python
`IndexError` that an out-of-bounds numpy assignment raises. -/
inductive PipelineError where
  | fileNotFound
  | invalidDocumentError
  | malformedDataError
  | emptyDatasetError
  | indexError
  deriving DecidableEq

/-- `load_simulation_data` (lines 25-35): opens and JSON-parses the file.
The input models the file system outcome: `none` = missing file,
`some none` = unparsable text, `some (some d)` = text parsing to `d`.
The function performs no schema validation whatsoever: any successfully
parsed document is returned unchanged. -/
def load_simulation_data (input : Option (Option SimulationData)) :
    Except PipelineError SimulationData :=
  match input with
  | none => .error .fileNotFound
  | some none => .error .invalidDocumentError
  | some (some d) => .ok d

/-- The reconstructed agent-major time series (lines 57-67).  The six numpy
arrays of shape `(num_birds, num_frames)` are modelled as total functions
`agent → frame → ℝ`; only indices below the recorded `num_birds` /
`numFrames` correspond to cells of the numpy arrays. -/
structure Trajectories where
  num_birds : ℕ
  numFrames : ℕ
  x : ℕ → ℕ → ℝ
  y : ℕ → ℕ → ℝ
  z : ℕ → ℕ → ℝ
  vx : ℕ → ℕ → ℝ
  vy : ℕ → ℕ → ℝ
  vz : ℕ → ℕ → ℝ
  times : List ℝ
  steps : List ℤ

/-- Value of one channel cell after the fill loop of `extract_trajectories`
(lines 70-80): the loop writes `frames[f].birds[a]` into cell `[a, f]`, and a
cell never written keeps the `np.zeros` initialization `0.0`. -/
def channelAt (d : SimulationData) (get : BirdState → ℝ) (a f : ℕ) : ℝ :=
  match (d.frames.get? f).bind (fun fr => fr.birds.get? a) with
  | some b => get b
  | none => 0

/-- The `Trajectories` value produced by a completed run of the fill loop of
`extract_trajectories` (lines 52-82). -/
def buildTrajectories (d : SimulationData) : Trajectories where
  num_birds := d.parameters.num_birds
  numFrames := d.frames.length
  x := channelAt d (fun b => b.position.x)
  y := channelAt d (fun b => b.position.y)
  z := channelAt d (fun b => b.position.z)
  vx := channelAt d (fun b => b.velocity.x)
  vy := channelAt d (fun b => b.velocity.y)
  vz := channelAt d (fun b => b.velocity.z)
  times := d.frames.map (fun fr => fr.timestamp)
  steps := d.frames.map (fun fr => fr.step)

/-- `extract_trajectories` (lines 52-82).  The assignment
`trajectories['x'][bird_idx, frame_idx] = ...` raises `IndexError` exactly
when some frame holds more birds than `num_birds` rows were allocated;
otherwise the fill loop completes. -/
def extract_trajectories (d : SimulationData) : Except PipelineError Trajectories :=
  if d.frames.any (fun fr => decide (d.parameters.num_birds < fr.birds.length)) then
    .error .indexError
  else
    .ok (buildTrajectories d)

/-- `np.mean` over a 1-D sample list: the arithmetic mean, or NaN (modelled
`none`) when the list is empty. -/
noncomputable def npMean (l : List ℝ) : Option ℝ :=
  if l.isEmpty then none else some (l.sum / l.length)

/-- Per-agent speed `speeds = np.sqrt(vx**2 + vy**2 + vz**2)` at frame `f`
(line 248). -/
noncomputable def birdSpeed (t : Trajectories) (f a : ℕ) : ℝ :=
  Real.sqrt ((t.vx a f) ^ 2 + (t.vy a f) ^ 2 + (t.vz a f) ^ 2)

/-- The divisor actually used after `speeds[speeds == 0] = 1` (line 249). -/
noncomputable def normDenom (t : Trajectories) (f a : ℕ) : ℝ :=
  if birdSpeed t f a = 0 then 1 else birdSpeed t f a

/-- `vx_norm = vx / speeds` (line 251). -/
noncomputable def vxn (t : Trajectories) (f a : ℕ) : ℝ :=
  t.vx a f / normDenom t f a

/-- `vy_norm = vy / speeds` (line 252). -/
noncomputable def vyn (t : Trajectories) (f a : ℕ) : ℝ :=
  t.vy a f / normDenom t f a

/-- `vz_norm = vz / speeds` (line 253). -/
noncomputable def vzn (t : Trajectories) (f a : ℕ) : ℝ :=
  t.vz a f / normDenom t f a

/-- The order parameter of one frame (lines 243-261): the Euclidean norm of
the componentwise means of the normalized velocities.  With zero agents each
`np.mean` is NaN (`none`) and so is the order parameter. -/
noncomputable def orderAtFrame (t : Trajectories) (f : ℕ) : Option ℝ :=
  match npMean ((List.range t.num_birds).map (vxn t f)),
        npMean ((List.range t.num_birds).map (vyn t f)),
        npMean ((List.range t.num_birds).map (vzn t f)) with
  | some ax, some ay, some az => some (Real.sqrt (ax ^ 2 + ay ^ 2 + az ^ 2))
  | _, _, _ => none

/-- The per-frame order parameter series (lines 240-261): one value per entry
of `trajectories['times']`. -/
noncomputable def order_parameter (t : Trajectories) : List (Option ℝ) :=
  (List.range t.times.length).map (orderAtFrame t)

/-- `distances = np.sqrt(x**2 + y**2 + z**2)` at cell `(a, f)` (line 275). -/
noncomputable def distanceFromOrigin (t : Trajectories) (a f : ℕ) : ℝ :=
  Real.sqrt ((t.x a f) ^ 2 + (t.y a f) ^ 2 + (t.z a f) ^ 2)

/-- `mean_distance = np.mean(distances, axis=0)` (line 276): for each frame,
the mean over agents of the distance from the origin — the only distance
statistic the script computes. -/
noncomputable def mean_distance (t : Trajectories) : List (Option ℝ) :=
  (List.range t.numFrames).map
    (fun f => npMean ((List.range t.num_birds).map (fun a => distanceFromOrigin t a f)))

/-- The numeric outputs of `create_trajectory_analysis` (lines 181-307) that
the claims concern: the order-parameter series and the mean-distance series.
The source raises no exception on this path; the `Except` wrapper carries the
spec's error taxonomy so that claimed failures are statable. -/
noncomputable def create_trajectory_analysis (t : Trajectories) :
    Except PipelineError (List (Option ℝ) × List (Option ℝ)) :=
  .ok (order_parameter t, mean_distance t)

/-- Python extended-slice semantics of `seq[::k]` for `k ≥ 1`: the result has
`ceil(len / k)` elements and element `j` is `seq[j * k]`. -/
def sliceStep {α : Type} (k : ℕ) (l : List α) : List α :=
  (List.range ((l.length + k - 1) / k)).filterMap (fun j => l.get? (j * k))

/-- The frame sampler of `create_animated_visualization`:
`data['frames'][::5]` (line 124). -/
def sampleFrames (d : SimulationData) : List Frame :=
  sliceStep 5 d.frames

/-! ## Vector view of the per-frame velocity data -/

/-- A triple of scalars as a vector of `EuclideanSpace ℝ (Fin 3)`. -/
noncomputable def v3 (a b c : ℝ) : EuclideanSpace ℝ (Fin 3) := ![a, b, c]

lemma v3_add (a b c a' b' c' : ℝ) :
    v3 a b c + v3 a' b' c' = v3 (a + a') (b + b') (c + c') := by
  funext i
  fin_cases i <;> rfl

lemma v3_smul (r a b c : ℝ) : r • v3 a b c = v3 (r * a) (r * b) (r * c) := by
  funext i
  fin_cases i <;> rfl

lemma v3_zero : v3 0 0 0 = 0 := by
  funext i
  fin_cases i <;> rfl

lemma norm_v3 (a b c : ℝ) : ‖v3 a b c‖ = Real.sqrt (a ^ 2 + b ^ 2 + c ^ 2) := by
  rw [EuclideanSpace.norm_eq]
  simp [Fin.sum_univ_three, v3]

lemma v3_sum (n : ℕ) (fa fb fc : ℕ → ℝ) :
    ∑ a in Finset.range n, v3 (fa a) (fb a) (fc a) =
      v3 (∑ a in Finset.range n, fa a) (∑ a in Finset.range n, fb a)
        (∑ a in Finset.range n, fc a) := by
  induction n with
  | zero => simp [v3_zero]
  | succ n ih => rw [Finset.sum_range_succ, ih, v3_add,
      Finset.sum_range_succ, Finset.sum_range_succ, Finset.sum_range_succ]

/-- The velocity of agent `a` at frame `f`, read from the reconstructed
channel arrays, as a vector. -/
noncomputable def velVec (t : Trajectories) (f a : ℕ) : EuclideanSpace ℝ (Fin 3) :=
  v3 (t.vx a f) (t.vy a f) (t.vz a f)

/-- The normalized velocity of agent `a` at frame `f`, exactly as the script
computes it: each component divided by `normDenom`. -/
noncomputable def unitVec (t : Trajectories) (f a : ℕ) : EuclideanSpace ℝ (Fin 3) :=
  v3 (vxn t f a) (vyn t f a) (vzn t f a)

lemma birdSpeed_nonneg (t : Trajectories) (f a : ℕ) : 0 ≤ birdSpeed t f a :=
  Real.sqrt_nonneg _

lemma birdSpeed_eq_norm (t : Trajectories) (f a : ℕ) :
    birdSpeed t f a = ‖velVec t f a‖ := by
  rw [velVec, norm_v3, birdSpeed]

lemma normDenom_pos (t : Trajectories) (f a : ℕ) : 0 < normDenom t f a := by
  rw [normDenom]
  split
  · exact one_pos
  · rename_i h
    exact lt_of_le_of_ne (birdSpeed_nonneg t f a) (Ne.symm h)

lemma normDenom_ne_zero (t : Trajectories) (f a : ℕ) : normDenom t f a ≠ 0 :=
  ne_of_gt (normDenom_pos t f a)

lemma unitVec_eq_smul (t : Trajectories) (f a : ℕ) :
    unitVec t f a = (normDenom t f a)⁻¹ • velVec t f a := by
  rw [unitVec, velVec, v3_smul, vxn, vyn, vzn,
    div_eq_inv_mul, div_eq_inv_mul, div_eq_inv_mul]

/-- Zero speed forces a zero velocity vector (the sum of squares under the
square root is a sum of nonnegative terms). -/
lemma velVec_eq_zero_of_speed_zero (t : Trajectories) (f a : ℕ)
    (h : birdSpeed t f a = 0) : velVec t f a = 0 := by
  rw [birdSpeed, Real.sqrt_eq_zero'] at h
  have hx : t.vx a f ^ 2 = 0 :=
    le_antisymm (by linarith [sq_nonneg (t.vy a f), sq_nonneg (t.vz a f)]) (sq_nonneg _)
  have hy : t.vy a f ^ 2 = 0 :=
    le_antisymm (by linarith [sq_nonneg (t.vx a f), sq_nonneg (t.vz a f)]) (sq_nonneg _)
  have hz : t.vz a f ^ 2 = 0 :=
    le_antisymm (by linarith [sq_nonneg (t.vx a f), sq_nonneg (t.vy a f)]) (sq_nonneg _)
  rw [pow_eq_zero_iff (by norm_num)] at hx hy hz
  rw [velVec, hx, hy, hz, v3_zero]

/-- A stationary agent contributes the zero vector. -/
lemma unitVec_of_speed_zero (t : Trajectories) (f a : ℕ)
    (h : birdSpeed t f a = 0) : unitVec t f a = 0 := by
  rw [unitVec_eq_smul, velVec_eq_zero_of_speed_zero t f a h, smul_zero]

/-- A moving agent contributes an exact unit vector. -/
lemma norm_unitVec_of_speed_ne_zero (t : Trajectories) (f a : ℕ)
    (h : birdSpeed t f a ≠ 0) : ‖unitVec t f a‖ = 1 := by
  have hd : normDenom t f a = birdSpeed t f a := by rw [normDenom, if_neg h]
  rw [unitVec_eq_smul, hd, norm_smul, ← birdSpeed_eq_norm, norm_inv,
    Real.norm_eq_abs, abs_of_nonneg (birdSpeed_nonneg t f a),
    inv_mul_cancel₀ h]

lemma norm_unitVec_le_one (t : Trajectories) (f a : ℕ) : ‖unitVec t f a‖ ≤ 1 := by
  by_cases h : birdSpeed t f a = 0
  · rw [unitVec_of_speed_zero t f a h, norm_zero]
    exact zero_le_one
  · rw [norm_unitVec_of_speed_ne_zero t f a h]

lemma list_range_map_sum {M : Type} [AddCommMonoid M] (g : ℕ → M) (n : ℕ) :
    ((List.range n).map g).sum = ∑ a in Finset.range n, g a := by
  induction n with
  | zero => simp
  | succ n ih =>
      rw [List.range_succ, List.map_append, List.sum_append, Finset.sum_range_succ, ih]
      simp

lemma npMean_range (g : ℕ → ℝ) (n : ℕ) (h : 1 ≤ n) :
    npMean ((List.range n).map g) = some ((∑ a in Finset.range n, g a) / n) := by
  rw [npMean, if_neg, list_range_map_sum, List.length_map, List.length_range]
  simp only [List.isEmpty_eq_true, List.map_eq_nil_iff, List.range_eq_nil]
  omega

/-- For at least one agent, the per-frame order parameter is the norm of the
mean of the agents' normalized velocity vectors. -/
lemma orderAtFrame_eq_norm (t : Trajectories) (f : ℕ) (h : 1 ≤ t.num_birds) :
    orderAtFrame t f =
      some ‖(t.num_birds : ℝ)⁻¹ • ∑ a in Finset.range t.num_birds, unitVec t f a‖ := by
  rw [orderAtFrame, npMean_range _ _ h, npMean_range _ _ h, npMean_range _ _ h]
  have hsum : ∑ a in Finset.range t.num_birds, unitVec t f a =
      v3 (∑ a in Finset.range t.num_birds, vxn t f a)
        (∑ a in Finset.range t.num_birds, vyn t f a)
        (∑ a in Finset.range t.num_birds, vzn t f a) := v3_sum _ _ _ _
  rw [hsum, v3_smul, norm_v3]
  simp only [Option.some.injEq]
  rw [div_eq_inv_mul, div_eq_inv_mul, div_eq_inv_mul]

/-- Core bound: with at least one agent the per-frame order parameter exists
and lies in the closed unit interval. -/
lemma orderAtFrame_mem_unit (t : Trajectories) (f : ℕ) (h : 1 ≤ t.num_birds) :
    ∃ r : ℝ, orderAtFrame t f = some r ∧ 0 ≤ r ∧ r ≤ 1 := by
  refine ⟨_, orderAtFrame_eq_norm t f h, norm_nonneg _, ?_⟩
  have hn : (0 : ℝ) < t.num_birds := by exact_mod_cast h
  have hbound : ‖∑ a in Finset.range t.num_birds, unitVec t f a‖ ≤ (t.num_birds : ℝ) := by
    calc ‖∑ a in Finset.range t.num_birds, unitVec t f a‖
        ≤ ∑ a in Finset.range t.num_birds, ‖unitVec t f a‖ := norm_sum_le _ _
      _ ≤ ∑ _a in Finset.range t.num_birds, (1 : ℝ) :=
          Finset.sum_le_sum (fun a _ => norm_unitVec_le_one t f a)
      _ = (t.num_birds : ℝ) := by simp
  rw [norm_smul, Real.norm_eq_abs, abs_of_nonneg (inv_nonneg.mpr hn.le)]
  have hmul := mul_le_mul_of_nonneg_left hbound (inv_nonneg.mpr hn.le)
  rwa [inv_mul_cancel₀ (ne_of_gt hn)] at hmul

/-- Core equivalence: the per-frame order parameter equals `1` exactly when
all agents' velocities are positive scalar multiples of one common nonzero
direction. -/
lemma orderAtFrame_eq_one_iff (t : Trajectories) (f : ℕ) (h : 1 ≤ t.num_birds) :
    orderAtFrame t f = some 1 ↔
      ∃ u : EuclideanSpace ℝ (Fin 3), u ≠ 0 ∧
        ∀ a < t.num_birds, ∃ c : ℝ, 0 < c ∧ velVec t f a = c • u := by
  have hn : (0 : ℝ) < t.num_birds := by exact_mod_cast h
  have hne0 : (t.num_birds : ℝ) ≠ 0 := ne_of_gt hn
  constructor
  · intro h1
    rw [orderAtFrame_eq_norm t f h] at h1
    have hnorm := Option.some.inj h1
    rw [norm_smul, Real.norm_eq_abs, abs_of_nonneg (inv_nonneg.mpr hn.le)] at hnorm
    have hS : ‖∑ a in Finset.range t.num_birds, unitVec t f a‖ = (t.num_birds : ℝ) := by
      field_simp at hnorm
      linarith
    have hsum_le : ∑ a in Finset.range t.num_birds, ‖unitVec t f a‖ ≤ (t.num_birds : ℝ) := by
      calc ∑ a in Finset.range t.num_birds, ‖unitVec t f a‖
          ≤ ∑ _a in Finset.range t.num_birds, (1 : ℝ) :=
            Finset.sum_le_sum (fun a _ => norm_unitVec_le_one t f a)
        _ = (t.num_birds : ℝ) := by simp
    have hsum_ge : (t.num_birds : ℝ) ≤ ∑ a in Finset.range t.num_birds, ‖unitVec t f a‖ :=
      hS ▸ norm_sum_le _ _
    have hsum_eq : ∑ a in Finset.range t.num_birds, ‖unitVec t f a‖ = (t.num_birds : ℝ) :=
      le_antisymm hsum_le hsum_ge
    have hone : ∀ a ∈ Finset.range t.num_birds, ‖unitVec t f a‖ = 1 := by
      intro a ha
      by_contra hne
      have hlt : ‖unitVec t f a‖ < 1 := lt_of_le_of_ne (norm_unitVec_le_one t f a) hne
      have hslt : ∑ b in Finset.range t.num_birds, ‖unitVec t f b‖ < (t.num_birds : ℝ) := by
        calc ∑ b in Finset.range t.num_birds, ‖unitVec t f b‖
            < ∑ _b in Finset.range t.num_birds, (1 : ℝ) :=
              Finset.sum_lt_sum (fun b _ => norm_unitVec_le_one t f b) ⟨a, ha, hlt⟩
          _ = (t.num_birds : ℝ) := by simp
      rw [hsum_eq] at hslt
      exact lt_irrefl _ hslt
    have hpair_le : ∀ a ∈ Finset.range t.num_birds, ∀ b ∈ Finset.range t.num_birds,
        ⟪unitVec t f a, unitVec t f b⟫ ≤ 1 := by
      intro a ha b hb
      calc ⟪unitVec t f a, unitVec t f b⟫
          ≤ ‖unitVec t f a‖ * ‖unitVec t f b‖ := real_inner_le_norm _ _
        _ = 1 := by rw [hone a ha, hone b hb, one_mul]
    have hexpand : ∑ a in Finset.range t.num_birds, ∑ b in Finset.range t.num_birds,
        ⟪unitVec t f a, unitVec t f b⟫ = ((t.num_birds : ℝ)) ^ 2 := by
      have hSS : ⟪∑ a in Finset.range t.num_birds, unitVec t f a,
          ∑ b in Finset.range t.num_birds, unitVec t f b⟫ = ((t.num_birds : ℝ)) ^ 2 := by
        rw [real_inner_self_eq_norm_sq, hS]
      rw [sum_inner] at hSS
      rw [← hSS]
      exact Finset.sum_congr rfl (fun a _ => (inner_sum _ _ _).symm)
    have hpair_eq : ∀ a ∈ Finset.range t.num_birds, ∀ b ∈ Finset.range t.num_birds,
        ⟪unitVec t f a, unitVec t f b⟫ = 1 := by
      intro a ha b hb
      by_contra hne
      have hblt : ⟪unitVec t f a, unitVec t f b⟫ < 1 :=
        lt_of_le_of_ne (hpair_le a ha b hb) hne
      have hrow_lt : ∑ b' in Finset.range t.num_birds, ⟪unitVec t f a, unitVec t f b'⟫ <
          (t.num_birds : ℝ) := by
        calc ∑ b' in Finset.range t.num_birds, ⟪unitVec t f a, unitVec t f b'⟫
            < ∑ _b' in Finset.range t.num_birds, (1 : ℝ) :=
              Finset.sum_lt_sum (fun b' hb' => hpair_le a ha b' hb') ⟨b, hb, hblt⟩
          _ = (t.num_birds : ℝ) := by simp
      have hrow_le : ∀ a' ∈ Finset.range t.num_birds,
          ∑ b' in Finset.range t.num_birds, ⟪unitVec t f a', unitVec t f b'⟫ ≤
            (t.num_birds : ℝ) := by
        intro a' ha'
        calc ∑ b' in Finset.range t.num_birds, ⟪unitVec t f a', unitVec t f b'⟫
            ≤ ∑ _b' in Finset.range t.num_birds, (1 : ℝ) :=
              Finset.sum_le_sum (fun b' hb' => hpair_le a' ha' b' hb')
          _ = (t.num_birds : ℝ) := by simp
      have htot_lt : ∑ a' in Finset.range t.num_birds, ∑ b' in Finset.range t.num_birds,
          ⟪unitVec t f a', unitVec t f b'⟫ < (t.num_birds : ℝ) * (t.num_birds : ℝ) := by
        calc ∑ a' in Finset.range t.num_birds, ∑ b' in Finset.range t.num_birds,
            ⟪unitVec t f a', unitVec t f b'⟫
            < ∑ _a' in Finset.range t.num_birds, (t.num_birds : ℝ) :=
              Finset.sum_lt_sum hrow_le ⟨a, ha, hrow_lt⟩
          _ = (t.num_birds : ℝ) * (t.num_birds : ℝ) := by
              rw [Finset.sum_const, Finset.card_range, nsmul_eq_mul]
      rw [hexpand, sq] at htot_lt
      exact lt_irrefl _ htot_lt
    have hvec_eq : ∀ a ∈ Finset.range t.num_birds, ∀ b ∈ Finset.range t.num_birds,
        unitVec t f a = unitVec t f b := by
      intro a ha b hb
      have h2 : ‖unitVec t f a - unitVec t f b‖ ^ 2 = 0 := by
        rw [norm_sub_sq_real, hone a ha, hone b hb, hpair_eq a ha b hb]
        norm_num
      rw [pow_eq_zero_iff (by norm_num)] at h2
      exact sub_eq_zero.mp (norm_eq_zero.mp h2)
    have h0 : 0 ∈ Finset.range t.num_birds := Finset.mem_range.mpr (by omega)
    refine ⟨unitVec t f 0, ?_, ?_⟩
    · intro hz
      have h1a := hone 0 h0
      rw [hz, norm_zero] at h1a
      norm_num at h1a
    · intro a ha
      have ha' : a ∈ Finset.range t.num_birds := Finset.mem_range.mpr ha
      have hsp : birdSpeed t f a ≠ 0 := by
        intro hsp0
        have h1a := hone a ha'
        rw [unitVec_of_speed_zero t f a hsp0, norm_zero] at h1a
        norm_num at h1a
      have hd : normDenom t f a = birdSpeed t f a := if_neg hsp
      have hval : velVec t f a = birdSpeed t f a • unitVec t f a := by
        rw [unitVec_eq_smul, hd, smul_smul, mul_inv_cancel₀ hsp, one_smul]
      exact ⟨birdSpeed t f a,
        lt_of_le_of_ne (birdSpeed_nonneg t f a) (Ne.symm hsp),
        by rw [hval, hvec_eq a ha' 0 h0]⟩
  · rintro ⟨u, hu, hall⟩
    have hupos : 0 < ‖u‖ := norm_pos_iff.mpr hu
    have hunit : ∀ a ∈ Finset.range t.num_birds, unitVec t f a = ‖u‖⁻¹ • u := by
      intro a ha
      obtain ⟨c, hc, hv⟩ := hall a (Finset.mem_range.mp ha)
      have hsp : birdSpeed t f a = c * ‖u‖ := by
        rw [birdSpeed_eq_norm, hv, norm_smul, Real.norm_eq_abs, abs_of_pos hc]
      have hspne : birdSpeed t f a ≠ 0 := by
        rw [hsp]
        exact ne_of_gt (mul_pos hc hupos)
      have hd : normDenom t f a = birdSpeed t f a := if_neg hspne
      rw [unitVec_eq_smul, hd, hsp, hv, smul_smul]
      congr 1
      field_simp
    rw [orderAtFrame_eq_norm t f h]
    have hSsum : ∑ a in Finset.range t.num_birds, unitVec t f a =
        t.num_birds • (‖u‖⁻¹ • u) := by
      rw [Finset.sum_congr rfl hunit, Finset.sum_const, Finset.card_range]
    rw [hSsum]
    have hsimp : (t.num_birds : ℝ)⁻¹ • (t.num_birds • (‖u‖⁻¹ • u)) = ‖u‖⁻¹ • u := by
      rw [← Nat.cast_smul_eq_nsmul ℝ, smul_smul, inv_mul_cancel₀ hne0, one_smul]
    rw [hsimp]
    exact congrArg some (norm_smul_inv_norm hu)

/-! ## Arithmetic of the stride-`k` slice -/

lemma slice_ceil_eq (k len : ℕ) (hk : 1 ≤ k) (hl : 1 ≤ len) :
    (len + k - 1) / k = (len - 1) / k + 1 := by
  have hrw : len + k - 1 = (len - 1) + k := by omega
  rw [hrw, Nat.add_div_right _ (by omega)]

lemma slice_index_inbounds (k len j : ℕ) (hk : 1 ≤ k) (hl : 1 ≤ len)
    (hj : j < (len + k - 1) / k) : j * k < len := by
  rw [slice_ceil_eq k len hk hl] at hj
  have hj' : j ≤ (len - 1) / k := by omega
  have h1 : j * k ≤ ((len - 1) / k) * k := Nat.mul_le_mul_right k hj'
  have h2 : ((len - 1) / k) * k ≤ len - 1 := Nat.div_mul_le_self _ _
  omega

lemma slice_index_outbounds (k len j : ℕ) (hk : 1 ≤ k) (hl : 1 ≤ len)
    (hj : (len + k - 1) / k ≤ j) : len ≤ j * k := by
  rw [slice_ceil_eq k len hk hl] at hj
  have h1 : ((len - 1) / k + 1) * k ≤ j * k := Nat.mul_le_mul_right k hj
  have hmod := Nat.div_add_mod (len - 1) k
  have hrlt : (len - 1) % k < k := Nat.mod_lt _ (by omega)
  have hexp : ((len - 1) / k + 1) * k = k * ((len - 1) / k) + k := by ring
  omega

lemma filterMap_range_eq_map (g : ℕ → Option Frame) (m : ℕ)
    (hg : ∀ j, j < m → g j = some ((g j).getD default)) :
    (List.range m).filterMap g = (List.range m).map (fun j => (g j).getD default) := by
  induction m with
  | zero => simp
  | succ m ih =>
      rw [List.range_succ, List.filterMap_append, List.map_append,
        ih (fun j hj => hg j (by omega))]
      congr 1
      obtain ⟨b, hb⟩ : ∃ b, g m = some b := ⟨_, hg m (by omega)⟩
      simp [List.filterMap_cons, hb]

/-- In-bounds representation of the slice as a plain map over the index grid. -/
lemma sliceStep_eq_map (k : ℕ) (l : List Frame) (hk : 1 ≤ k) (hl : l ≠ []) :
    sliceStep k l = (List.range ((l.length + k - 1) / k)).map
      (fun j => (l.get? (j * k)).getD default) := by
  have hlen : 1 ≤ l.length := List.length_pos.mpr hl
  rw [sliceStep]
  exact filterMap_range_eq_map _ _ (fun j hj => by
    have hb : j * k < l.length := slice_index_inbounds k l.length j hk hlen hj
    rw [List.get?_eq_get hb]
    simp)

lemma sliceStep_length (k : ℕ) (l : List Frame) (hk : 1 ≤ k) (hl : l ≠ []) :
    (sliceStep k l).length = (l.length - 1) / k + 1 := by
  have hlen : 1 ≤ l.length := List.length_pos.mpr hl
  rw [sliceStep_eq_map k l hk hl, List.length_map, List.length_range,
    slice_ceil_eq k l.length hk hlen]

lemma sliceStep_get? (k : ℕ) (l : List Frame) (hk : 1 ≤ k) (hl : l ≠ []) (j : ℕ) :
    (sliceStep k l).get? j = l.get? (j * k) := by
  have hlen : 1 ≤ l.length := List.length_pos.mpr hl
  rw [sliceStep_eq_map k l hk hl]
  by_cases hj : j < (l.length + k - 1) / k
  · rw [List.get?_map, List.get?_range hj]
    have hb : j * k < l.length := slice_index_inbounds k l.length j hk hlen hj
    rw [List.get?_eq_get hb]
    simp [List.getElem?_eq_getElem hb]
  · rw [List.get?_map, List.get?_eq_none.mpr (by simp; omega)]
    symm
    rw [Option.map_none', List.get?_eq_none]
    exact slice_index_outbounds k l.length j hk hlen (by omega)

/-! ## Channel-cell lemmas for the reconstruction -/

lemma build_x (d : SimulationData) (a f : ℕ) :
    (buildTrajectories d).x a f = channelAt d (fun b => b.position.x) a f := rfl

lemma build_y (d : SimulationData) (a f : ℕ) :
    (buildTrajectories d).y a f = channelAt d (fun b => b.position.y) a f := rfl

lemma build_z (d : SimulationData) (a f : ℕ) :
    (buildTrajectories d).z a f = channelAt d (fun b => b.position.z) a f := rfl

lemma build_vx (d : SimulationData) (a f : ℕ) :
    (buildTrajectories d).vx a f = channelAt d (fun b => b.velocity.x) a f := rfl

lemma build_vy (d : SimulationData) (a f : ℕ) :
    (buildTrajectories d).vy a f = channelAt d (fun b => b.velocity.y) a f := rfl

lemma build_vz (d : SimulationData) (a f : ℕ) :
    (buildTrajectories d).vz a f = channelAt d (fun b => b.velocity.z) a f := rfl

/-- A cell whose bird exists holds that bird's component. -/
lemma channelAt_of_get? (d : SimulationData) (get : BirdState → ℝ) (a f : ℕ)
    (fr : Frame) (b : BirdState) (hf : d.frames.get? f = some fr)
    (hb : fr.birds.get? a = some b) : channelAt d get a f = get b := by
  rw [channelAt, hf]
  have hb' : fr.birds[a]? = some b := by
    rw [← List.get?_eq_getElem?]
    exact hb
  simp [hb']

/-- A cell whose agent row exceeds the frame's bird count keeps the zero
initialization. -/
lemma channelAt_of_missing (d : SimulationData) (get : BirdState → ℝ) (a f : ℕ)
    (fr : Frame) (hf : d.frames.get? f = some fr) (ha : fr.birds.length ≤ a) :
    channelAt d get a f = 0 := by
  rw [channelAt, hf]
  have hb' : fr.birds[a]? = none := by
    rw [← List.get?_eq_getElem?]
    exact List.get?_eq_none.mpr ha
  simp [hb']

/-- When no frame exceeds the allocated row count, the fill loop completes. -/
lemma extract_ok_of_le (d : SimulationData)
    (hle : ∀ fr ∈ d.frames, fr.birds.length ≤ d.parameters.num_birds) :
    extract_trajectories d = Except.ok (buildTrajectories d) := by
  rw [extract_trajectories, if_neg]
  intro hcon
  rw [List.any_eq_true] at hcon
  obtain ⟨fr, hmem, hdec⟩ := hcon
  rw [decide_eq_true_eq] at hdec
  exact absurd hdec (not_lt.mpr (hle fr hmem))

lemma birdState_eta (b : BirdState) :
    BirdState.mk (Vec3.mk b.position.x b.position.y b.position.z)
      (Vec3.mk b.velocity.x b.velocity.y b.velocity.z) = b := rfl

/-- C1: for every well-formed export (every frame's bird list has length
exactly `num_birds`), `extract_trajectories` succeeds, the six channel arrays
have shape `[num_birds][num_frames]`, cell `[a][f]` of each channel holds the
corresponding component of `frames[f].birds[a]`, and re-slicing column `f`
of the agent-major arrays reproduces the original frame-major bird list
value-for-value in the same order. -/
theorem extract_trajectories_roundtrip (d : SimulationData)
    (hwf : ∀ fr ∈ d.frames, fr.birds.length = d.parameters.num_birds) :
    extract_trajectories d = Except.ok (buildTrajectories d) ∧
    (buildTrajectories d).num_birds = d.parameters.num_birds ∧
    (buildTrajectories d).numFrames = d.frames.length ∧
    (∀ f fr a b, d.frames.get? f = some fr → fr.birds.get? a = some b →
      (buildTrajectories d).x a f = b.position.x ∧
      (buildTrajectories d).y a f = b.position.y ∧
      (buildTrajectories d).z a f = b.position.z ∧
      (buildTrajectories d).vx a f = b.velocity.x ∧
      (buildTrajectories d).vy a f = b.velocity.y ∧
      (buildTrajectories d).vz a f = b.velocity.z) ∧
    (∀ f fr, d.frames.get? f = some fr →
      (List.range d.parameters.num_birds).map (fun a =>
        BirdState.mk
          (Vec3.mk ((buildTrajectories d).x a f) ((buildTrajectories d).y a f)
            ((buildTrajectories d).z a f))
          (Vec3.mk ((buildTrajectories d).vx a f) ((buildTrajectories d).vy a f)
            ((buildTrajectories d).vz a f))) = fr.birds) := by
  refine ⟨extract_ok_of_le d (fun fr hm => le_of_eq (hwf fr hm)), rfl, rfl, ?_, ?_⟩
  · intro f fr a b hf hb
    exact ⟨by rw [build_x, channelAt_of_get? d _ a f fr b hf hb],
      by rw [build_y, channelAt_of_get? d _ a f fr b hf hb],
      by rw [build_z, channelAt_of_get? d _ a f fr b hf hb],
      by rw [build_vx, channelAt_of_get? d _ a f fr b hf hb],
      by rw [build_vy, channelAt_of_get? d _ a f fr b hf hb],
      by rw [build_vz, channelAt_of_get? d _ a f fr b hf hb]⟩
  · intro f fr hf
    have hmem : fr ∈ d.frames := List.get?_mem hf
    have hlen : fr.birds.length = d.parameters.num_birds := hwf fr hmem
    apply List.ext_get?
    intro n
    by_cases hn : n < d.parameters.num_birds
    · have hb : n < fr.birds.length := by omega
      have hbval : fr.birds.get? n = some (fr.birds.get ⟨n, hb⟩) := List.get?_eq_get hb
      rw [List.get?_map, List.get?_range hn, List.get?_eq_get hb]
      simp only [Option.map_some']
      congr 1
      rw [build_x, build_y, build_z, build_vx, build_vy, build_vz,
        channelAt_of_get? d (fun b => b.position.x) n f fr _ hf hbval,
        channelAt_of_get? d (fun b => b.position.y) n f fr _ hf hbval,
        channelAt_of_get? d (fun b => b.position.z) n f fr _ hf hbval,
        channelAt_of_get? d (fun b => b.velocity.x) n f fr _ hf hbval,
        channelAt_of_get? d (fun b => b.velocity.y) n f fr _ hf hbval,
        channelAt_of_get? d (fun b => b.velocity.z) n f fr _ hf hbval]
    · have h1 : ((List.range d.parameters.num_birds).map (fun a =>
          BirdState.mk
            (Vec3.mk ((buildTrajectories d).x a f) ((buildTrajectories d).y a f)
              ((buildTrajectories d).z a f))
            (Vec3.mk ((buildTrajectories d).vx a f) ((buildTrajectories d).vy a f)
              ((buildTrajectories d).vz a f)))).get? n = none := by
        rw [List.get?_eq_none]
        simp only [List.length_map, List.length_range]
        omega
      have h2 : fr.birds.get? n = none := by
        rw [List.get?_eq_none]
        omega
      rw [h1, h2]

/-- A concrete well-formed single-frame export. -/
def data1 : SimulationData :=
  ⟨⟨1, 10, 1, 1, 1, 0, 1⟩, [⟨0, 0, [⟨⟨1, 2, 3⟩, ⟨4, 5, 6⟩⟩]⟩]⟩

theorem extract_trajectories_roundtrip_witness :
    (∀ fr ∈ data1.frames, fr.birds.length = data1.parameters.num_birds) ∧
    extract_trajectories data1 = Except.ok (buildTrajectories data1) ∧
    (buildTrajectories data1).x 0 0 = 1 ∧ (buildTrajectories data1).vz 0 0 = 6 := by
  have hwf : ∀ fr ∈ data1.frames, fr.birds.length = data1.parameters.num_birds := by
    intro fr hfr
    have he : fr = ⟨0, 0, [⟨⟨1, 2, 3⟩, ⟨4, 5, 6⟩⟩]⟩ := by
      simpa [data1] using hfr
    rw [he]
    rfl
  exact ⟨hwf, (extract_trajectories_roundtrip data1 hwf).1, rfl, rfl⟩

/-- C10: when no frame exceeds `num_birds` birds, reconstruction raises no
error even if some frame has fewer, and every agent row at or beyond a
frame's actual bird count keeps the `0.0` initialization in all six
channels — the per-frame agent-count invariant is not re-checked. -/
theorem extract_trajectories_zero_fill (d : SimulationData)
    (hle : ∀ fr ∈ d.frames, fr.birds.length ≤ d.parameters.num_birds) :
    extract_trajectories d = Except.ok (buildTrajectories d) ∧
    (∀ f fr a, d.frames.get? f = some fr → fr.birds.length ≤ a →
      (buildTrajectories d).x a f = 0 ∧ (buildTrajectories d).y a f = 0 ∧
      (buildTrajectories d).z a f = 0 ∧ (buildTrajectories d).vx a f = 0 ∧
      (buildTrajectories d).vy a f = 0 ∧ (buildTrajectories d).vz a f = 0) := by
  refine ⟨extract_ok_of_le d hle, ?_⟩
  intro f fr a hf ha
  exact ⟨by rw [build_x, channelAt_of_missing d _ a f fr hf ha],
    by rw [build_y, channelAt_of_missing d _ a f fr hf ha],
    by rw [build_z, channelAt_of_missing d _ a f fr hf ha],
    by rw [build_vx, channelAt_of_missing d _ a f fr hf ha],
    by rw [build_vy, channelAt_of_missing d _ a f fr hf ha],
    by rw [build_vz, channelAt_of_missing d _ a f fr hf ha]⟩

/-- A document claiming two birds whose single frame holds only one. -/
def dataShort : SimulationData :=
  ⟨⟨2, 10, 1, 1, 1, 0, 1⟩, [⟨0, 0, [⟨⟨1, 2, 3⟩, ⟨4, 5, 6⟩⟩]⟩]⟩

theorem extract_trajectories_zero_fill_witness :
    (∀ fr ∈ dataShort.frames, fr.birds.length ≤ dataShort.parameters.num_birds) ∧
    extract_trajectories dataShort = Except.ok (buildTrajectories dataShort) ∧
    (buildTrajectories dataShort).x 1 0 = 0 ∧
    (buildTrajectories dataShort).vx 1 0 = 0 := by
  have hle : ∀ fr ∈ dataShort.frames, fr.birds.length ≤ dataShort.parameters.num_birds := by
    intro fr hfr
    have he : fr = ⟨0, 0, [⟨⟨1, 2, 3⟩, ⟨4, 5, 6⟩⟩]⟩ := by
      simpa [dataShort] using hfr
    rw [he]
    show 1 ≤ 2
    norm_num
  have hres := extract_trajectories_zero_fill dataShort hle
  have hcell := hres.2 0 ⟨0, 0, [⟨⟨1, 2, 3⟩, ⟨4, 5, 6⟩⟩]⟩ 1 rfl (by norm_num)
  exact ⟨hle, hres.1, hcell.1, hcell.2.2.2.1⟩

/-- A document whose single frame has zero birds against `num_birds = 1`. -/
def dataMalformed : SimulationData :=
  ⟨⟨1, 10, 1, 1, 1, 0, 1⟩, [⟨0, 0, []⟩]⟩

/-- C6 counterexample: a document violating the per-frame agent-count
invariant is loaded without any `MalformedDataError` and trajectory
reconstruction then runs anyway. -/
theorem malformed_document_not_rejected :
    load_simulation_data (some (some dataMalformed)) = Except.ok dataMalformed ∧
    load_simulation_data (some (some dataMalformed)) ≠
      Except.error PipelineError.malformedDataError ∧
    extract_trajectories dataMalformed = Except.ok (buildTrajectories dataMalformed) := by
  refine ⟨rfl, ?_, rfl⟩
  intro hcon
  exact Except.noConfusion hcon

/-- C6 (amended): loading performs no schema validation — every parsed
document is returned unchanged, never a `MalformedDataError`; a count
mismatch surfaces only later, as an `IndexError` during reconstruction, and
only when some frame has **more** birds than `num_birds` (frames with fewer
are silently zero-filled). -/
theorem load_performs_no_validation (d : SimulationData) :
    load_simulation_data (some (some d)) = Except.ok d ∧
    (extract_trajectories d = Except.error PipelineError.indexError ↔
      ∃ fr ∈ d.frames, d.parameters.num_birds < fr.birds.length) := by
  refine ⟨rfl, ?_⟩
  rw [extract_trajectories]
  constructor
  · intro he
    by_cases hc : d.frames.any
        (fun fr => decide (d.parameters.num_birds < fr.birds.length)) = true
    · rw [List.any_eq_true] at hc
      obtain ⟨fr, hmem, hdec⟩ := hc
      exact ⟨fr, hmem, of_decide_eq_true hdec⟩
    · rw [if_neg hc] at he
      exact Except.noConfusion he
  · rintro ⟨fr, hmem, hlt⟩
    rw [if_pos (List.any_eq_true.mpr ⟨fr, hmem, decide_eq_true hlt⟩)]

theorem load_performs_no_validation_witness :
    load_simulation_data (some (some dataMalformed)) = Except.ok dataMalformed :=
  (load_performs_no_validation dataMalformed).1

/-- C2: for every input with `num_birds ≥ 1`, every entry of the computed
order-parameter series is a defined value lying in the closed interval
[0, 1]. -/
theorem order_parameter_in_unit_interval (d : SimulationData)
    (h : 1 ≤ d.parameters.num_birds) :
    ∀ o ∈ order_parameter (buildTrajectories d),
      ∃ r : ℝ, o = some r ∧ 0 ≤ r ∧ r ≤ 1 := by
  intro o ho
  rw [order_parameter, List.mem_map] at ho
  obtain ⟨f, _, rfl⟩ := ho
  exact orderAtFrame_mem_unit (buildTrajectories d) f h

/-- A concrete export with one bird of velocity (3, 4, 0). -/
def data2 : SimulationData :=
  ⟨⟨1, 10, 1, 1, 1, 0, 1⟩, [⟨0, 0, [⟨⟨10, 0, 0⟩, ⟨3, 4, 0⟩⟩]⟩]⟩

theorem order_parameter_in_unit_interval_witness :
    1 ≤ data2.parameters.num_birds ∧
    ∀ o ∈ order_parameter (buildTrajectories data2),
      ∃ r : ℝ, o = some r ∧ 0 ≤ r ∧ r ≤ 1 :=
  ⟨by decide, order_parameter_in_unit_interval data2 (by decide)⟩

/-- C4: for every frame of an input with `num_birds ≥ 1`, the order parameter
equals exactly 1 if and only if every agent's velocity is a positive scalar
multiple of one common (nonzero) direction. -/
theorem order_parameter_eq_one_iff_aligned (d : SimulationData) (f : ℕ)
    (h : 1 ≤ d.parameters.num_birds) :
    orderAtFrame (buildTrajectories d) f = some 1 ↔
      ∃ u : EuclideanSpace ℝ (Fin 3), u ≠ 0 ∧
        ∀ a < d.parameters.num_birds, ∃ c : ℝ, 0 < c ∧
          velVec (buildTrajectories d) f a = c • u :=
  orderAtFrame_eq_one_iff (buildTrajectories d) f h

/-- A concrete export with two birds both of velocity (1, 0, 0). -/
def data4 : SimulationData :=
  ⟨⟨2, 10, 1, 1, 1, 0, 1⟩,
   [⟨0, 0, [⟨⟨10, 0, 0⟩, ⟨1, 0, 0⟩⟩, ⟨⟨0, 10, 0⟩, ⟨1, 0, 0⟩⟩]⟩]⟩

theorem order_parameter_eq_one_iff_aligned_witness :
    1 ≤ data4.parameters.num_birds ∧
    orderAtFrame (buildTrajectories data4) 0 = some 1 := by
  have h : 1 ≤ data4.parameters.num_birds := by decide
  refine ⟨h, (order_parameter_eq_one_iff_aligned data4 0 h).mpr ?_⟩
  refine ⟨v3 1 0 0, ?_, ?_⟩
  · intro hz
    have h0 : (1 : ℝ) = 0 := congrFun hz 0
    norm_num at h0
  · intro a ha
    refine ⟨1, one_pos, ?_⟩
    rw [one_smul]
    have ha2 : a < 2 := ha
    interval_cases a
    · rfl
    · rfl

/-- C5: the normalization step never divides by zero (the divisor is the
speed with zeros replaced by `1`); a zero-speed agent contributes exactly
the zero vector to the frame's mean, and a positive-speed agent contributes
`velocity / speed`. -/
theorem zero_speed_normalization_policy (t : Trajectories) (f a : ℕ) :
    normDenom t f a ≠ 0 ∧
    (birdSpeed t f a = 0 → normDenom t f a = 1 ∧ unitVec t f a = 0) ∧
    (0 < birdSpeed t f a →
      unitVec t f a = (birdSpeed t f a)⁻¹ • velVec t f a) := by
  refine ⟨normDenom_ne_zero t f a,
    fun h0 => ⟨by rw [normDenom, if_pos h0], unitVec_of_speed_zero t f a h0⟩,
    fun hp => ?_⟩
  rw [unitVec_eq_smul, normDenom, if_neg (ne_of_gt hp)]

/-- A concrete export with one stationary bird and one moving bird. -/
def data5 : SimulationData :=
  ⟨⟨2, 10, 1, 1, 1, 0, 1⟩,
   [⟨0, 0, [⟨⟨10, 0, 0⟩, ⟨0, 0, 0⟩⟩, ⟨⟨0, 10, 0⟩, ⟨3, 4, 0⟩⟩]⟩]⟩

theorem zero_speed_normalization_policy_witness :
    birdSpeed (buildTrajectories data5) 0 0 = 0 ∧
    normDenom (buildTrajectories data5) 0 0 = 1 ∧
    unitVec (buildTrajectories data5) 0 0 = 0 := by
  have h0 : birdSpeed (buildTrajectories data5) 0 0 = 0 := by
    rw [birdSpeed,
      show (buildTrajectories data5).vx 0 0 = 0 from rfl,
      show (buildTrajectories data5).vy 0 0 = 0 from rfl,
      show (buildTrajectories data5).vz 0 0 = 0 from rfl,
      show ((0 : ℝ) ^ 2 + 0 ^ 2 + 0 ^ 2) = 0 by norm_num, Real.sqrt_zero]
  obtain ⟨h1, h2⟩ := (zero_speed_normalization_policy (buildTrajectories data5) 0 0).2.1 h0
  exact ⟨h0, h1, h2⟩

/-- A concrete export with two birds of velocities (1,0,0) and (−1,0,0). -/
def data9 : SimulationData :=
  ⟨⟨2, 10, 1, 1, 1, 0, 1⟩,
   [⟨0, 0, [⟨⟨10, 0, 0⟩, ⟨1, 0, 0⟩⟩, ⟨⟨0, 10, 0⟩, ⟨-1, 0, 0⟩⟩]⟩]⟩

/-- C9: for a frame with exactly two agents of velocities (1,0,0) and
(−1,0,0), the computed order parameter is exactly 0. -/
theorem order_parameter_cancelling_zero :
    orderAtFrame (buildTrajectories data9) 0 = some 0 := by
  have hs0 : birdSpeed (buildTrajectories data9) 0 0 = 1 := by
    rw [birdSpeed,
      show (buildTrajectories data9).vx 0 0 = 1 from rfl,
      show (buildTrajectories data9).vy 0 0 = 0 from rfl,
      show (buildTrajectories data9).vz 0 0 = 0 from rfl,
      show ((1 : ℝ) ^ 2 + 0 ^ 2 + 0 ^ 2) = 1 by norm_num, Real.sqrt_one]
  have hs1 : birdSpeed (buildTrajectories data9) 0 1 = 1 := by
    rw [birdSpeed,
      show (buildTrajectories data9).vx 1 0 = -1 from rfl,
      show (buildTrajectories data9).vy 1 0 = 0 from rfl,
      show (buildTrajectories data9).vz 1 0 = 0 from rfl,
      show (((-1) : ℝ) ^ 2 + 0 ^ 2 + 0 ^ 2) = 1 by norm_num, Real.sqrt_one]
  have hd0 : normDenom (buildTrajectories data9) 0 0 = 1 := by
    rw [normDenom, hs0, if_neg one_ne_zero]
  have hd1 : normDenom (buildTrajectories data9) 0 1 = 1 := by
    rw [normDenom, hs1, if_neg one_ne_zero]
  have hvxn0 : vxn (buildTrajectories data9) 0 0 = 1 := by
    rw [vxn, hd0, show (buildTrajectories data9).vx 0 0 = 1 from rfl, div_one]
  have hvxn1 : vxn (buildTrajectories data9) 0 1 = -1 := by
    rw [vxn, hd1, show (buildTrajectories data9).vx 1 0 = -1 from rfl, div_one]
  have hvyn0 : vyn (buildTrajectories data9) 0 0 = 0 := by
    rw [vyn, hd0, show (buildTrajectories data9).vy 0 0 = 0 from rfl, div_one]
  have hvyn1 : vyn (buildTrajectories data9) 0 1 = 0 := by
    rw [vyn, hd1, show (buildTrajectories data9).vy 1 0 = 0 from rfl, div_one]
  have hvzn0 : vzn (buildTrajectories data9) 0 0 = 0 := by
    rw [vzn, hd0, show (buildTrajectories data9).vz 0 0 = 0 from rfl, div_one]
  have hvzn1 : vzn (buildTrajectories data9) 0 1 = 0 := by
    rw [vzn, hd1, show (buildTrajectories data9).vz 1 0 = 0 from rfl, div_one]
  have hmx : npMean ((List.range (buildTrajectories data9).num_birds).map
      (vxn (buildTrajectories data9) 0)) = some 0 := by
    rw [show (List.range (buildTrajectories data9).num_birds).map
        (vxn (buildTrajectories data9) 0) =
        [vxn (buildTrajectories data9) 0 0, vxn (buildTrajectories data9) 0 1] from rfl,
      hvxn0, hvxn1, npMean]
    norm_num
  have hmy : npMean ((List.range (buildTrajectories data9).num_birds).map
      (vyn (buildTrajectories data9) 0)) = some 0 := by
    rw [show (List.range (buildTrajectories data9).num_birds).map
        (vyn (buildTrajectories data9) 0) =
        [vyn (buildTrajectories data9) 0 0, vyn (buildTrajectories data9) 0 1] from rfl,
      hvyn0, hvyn1, npMean]
    norm_num
  have hmz : npMean ((List.range (buildTrajectories data9).num_birds).map
      (vzn (buildTrajectories data9) 0)) = some 0 := by
    rw [show (List.range (buildTrajectories data9).num_birds).map
        (vzn (buildTrajectories data9) 0) =
        [vzn (buildTrajectories data9) 0 0, vzn (buildTrajectories data9) 0 1] from rfl,
      hvzn0, hvzn1, npMean]
    norm_num
  rw [orderAtFrame, hmx, hmy, hmz]
  show some (Real.sqrt ((0 : ℝ) ^ 2 + 0 ^ 2 + 0 ^ 2)) = some 0
  rw [show ((0 : ℝ) ^ 2 + 0 ^ 2 + 0 ^ 2) = 0 by norm_num, Real.sqrt_zero]

/-- A zero-agent export with one (empty) frame. -/
def data0 : SimulationData :=
  ⟨⟨0, 10, 1, 1, 1, 0, 1⟩, [⟨0, 0, []⟩]⟩

/-- C3 counterexample: on a zero-agent dataset the analysis silently returns
NaN series (`none` entries), not an `EmptyDatasetError`. -/
theorem zero_agents_yield_nan_not_error :
    create_trajectory_analysis (buildTrajectories data0) =
      Except.ok ([none], [none]) ∧
    create_trajectory_analysis (buildTrajectories data0) ≠
      Except.error PipelineError.emptyDatasetError := by
  refine ⟨rfl, ?_⟩
  intro hcon
  exact Except.noConfusion hcon

/-- C3 (amended): with zero agents no error is signalled — both the
order-parameter series and the mean-distance series consist entirely of NaN
(`none`) values, one per frame. -/
theorem zero_agent_analysis_returns_nan (d : SimulationData)
    (h : d.parameters.num_birds = 0) :
    create_trajectory_analysis (buildTrajectories d) =
      Except.ok (List.replicate d.frames.length none,
        List.replicate d.frames.length none) := by
  have horder : ∀ f, orderAtFrame (buildTrajectories d) f = none := by
    intro f
    rw [orderAtFrame, show (buildTrajectories d).num_birds = d.parameters.num_birds
      from rfl, h]
    rfl
  have hop : order_parameter (buildTrajectories d) =
      List.replicate d.frames.length none := by
    rw [order_parameter]
    apply List.eq_replicate.mpr
    constructor
    · simp [buildTrajectories]
    · intro o ho
      rw [List.mem_map] at ho
      obtain ⟨f, _, rfl⟩ := ho
      exact horder f
  have hmd : mean_distance (buildTrajectories d) =
      List.replicate d.frames.length none := by
    rw [mean_distance]
    apply List.eq_replicate.mpr
    constructor
    · simp [buildTrajectories]
    · intro o ho
      rw [List.mem_map] at ho
      obtain ⟨f, _, rfl⟩ := ho
      rw [show (buildTrajectories d).num_birds = d.parameters.num_birds from rfl, h]
      rfl
  rw [create_trajectory_analysis, hop, hmd]

theorem zero_agent_analysis_returns_nan_witness :
    data0.parameters.num_birds = 0 ∧
    create_trajectory_analysis (buildTrajectories data0) =
      Except.ok (List.replicate data0.frames.length none,
        List.replicate data0.frames.length none) :=
  ⟨rfl, zero_agent_analysis_returns_nan data0 rfl⟩

/-! ## Spec-side flattened distance statistics (for comparison with the
script's per-frame means) -/

/-- Follows the spec's words (§4.3): the distance from origin for every
(agent, frame) sample, as one flattened list. -/
noncomputable def specFlatDistanceSamples (t : Trajectories) : List ℝ :=
  (List.range t.num_birds).bind
    (fun a => (List.range t.numFrames).map (fun f => distanceFromOrigin t a f))

/-- Follows the spec's words: mean over the full flattened sample set. -/
noncomputable def specFlatMean (t : Trajectories) : Option ℝ :=
  npMean (specFlatDistanceSamples t)

/-- Follows the spec's words: population standard deviation (divisor N, not
N−1) over the full flattened sample set. -/
noncomputable def specFlatStd (t : Trajectories) : Option ℝ :=
  match npMean (specFlatDistanceSamples t) with
  | none => none
  | some m =>
      (npMean ((specFlatDistanceSamples t).map (fun v => (v - m) ^ 2))).map Real.sqrt

/-- Follows the spec's words: minimum over the full flattened sample set. -/
noncomputable def specFlatMin (t : Trajectories) : Option ℝ :=
  match specFlatDistanceSamples t with
  | [] => none
  | v :: rest => some (rest.foldl min v)

/-- Follows the spec's words: maximum over the full flattened sample set. -/
noncomputable def specFlatMax (t : Trajectories) : Option ℝ :=
  match specFlatDistanceSamples t with
  | [] => none
  | v :: rest => some (rest.foldl max v)

/-- One bird, two frames, at distances 1 and 3 from the origin. -/
def data7 : SimulationData :=
  ⟨⟨1, 2, 1, 1, 1, 0, 2⟩,
   [⟨0, 0, [⟨⟨1, 0, 0⟩, ⟨0, 0, 0⟩⟩]⟩, ⟨1, 1, [⟨⟨3, 0, 0⟩, ⟨0, 0, 0⟩⟩]⟩]⟩

/-- C7 counterexample: the script's only distance report is the per-frame
mean series — here `[1, 3]` — while the flattened-sample statistics the
claim says are reported are mean 2, std 1, min 1, max 3; in particular the
flattened mean 2 appears nowhere in the script's output. -/
theorem flattened_distance_stats_not_reported :
    mean_distance (buildTrajectories data7) = [some 1, some 3] ∧
    specFlatMean (buildTrajectories data7) = some 2 ∧
    specFlatStd (buildTrajectories data7) = some 1 ∧
    specFlatMin (buildTrajectories data7) = some 1 ∧
    specFlatMax (buildTrajectories data7) = some 3 ∧
    some (2 : ℝ) ∉ mean_distance (buildTrajectories data7) := by
  have hd00 : distanceFromOrigin (buildTrajectories data7) 0 0 = 1 := by
    rw [distanceFromOrigin,
      show (buildTrajectories data7).x 0 0 = 1 from rfl,
      show (buildTrajectories data7).y 0 0 = 0 from rfl,
      show (buildTrajectories data7).z 0 0 = 0 from rfl,
      show ((1 : ℝ) ^ 2 + 0 ^ 2 + 0 ^ 2) = 1 by norm_num, Real.sqrt_one]
  have hd01 : distanceFromOrigin (buildTrajectories data7) 0 1 = 3 := by
    rw [distanceFromOrigin,
      show (buildTrajectories data7).x 0 1 = 3 from rfl,
      show (buildTrajectories data7).y 0 1 = 0 from rfl,
      show (buildTrajectories data7).z 0 1 = 0 from rfl,
      show ((3 : ℝ) ^ 2 + 0 ^ 2 + 0 ^ 2) = 3 ^ 2 by norm_num,
      Real.sqrt_sq (by norm_num : (0 : ℝ) ≤ 3)]
  have hsam : specFlatDistanceSamples (buildTrajectories data7) =
      [distanceFromOrigin (buildTrajectories data7) 0 0,
       distanceFromOrigin (buildTrajectories data7) 0 1] := rfl
  have hsam13 : specFlatDistanceSamples (buildTrajectories data7) = [1, 3] := by
    rw [hsam, hd00, hd01]
  have hmean : npMean (specFlatDistanceSamples (buildTrajectories data7)) =
      some 2 := by
    rw [hsam13, npMean]
    norm_num
  have h1 : mean_distance (buildTrajectories data7) = [some 1, some 3] := by
    have e0 : npMean ((List.range (buildTrajectories data7).num_birds).map
        (fun a => distanceFromOrigin (buildTrajectories data7) a 0)) = some 1 := by
      rw [show (List.range (buildTrajectories data7).num_birds).map
          (fun a => distanceFromOrigin (buildTrajectories data7) a 0) =
          [distanceFromOrigin (buildTrajectories data7) 0 0] from rfl, hd00, npMean]
      norm_num
    have e1 : npMean ((List.range (buildTrajectories data7).num_birds).map
        (fun a => distanceFromOrigin (buildTrajectories data7) a 1)) = some 3 := by
      rw [show (List.range (buildTrajectories data7).num_birds).map
          (fun a => distanceFromOrigin (buildTrajectories data7) a 1) =
          [distanceFromOrigin (buildTrajectories data7) 0 1] from rfl, hd01, npMean]
      norm_num
    rw [mean_distance,
      show List.range (buildTrajectories data7).numFrames = [0, 1] from rfl,
      List.map_cons, List.map_cons, List.map_nil, e0, e1]
  refine ⟨h1, hmean, ?_, ?_, ?_, ?_⟩
  · rw [specFlatStd, hmean]
    show Option.map Real.sqrt
      (npMean ((specFlatDistanceSamples (buildTrajectories data7)).map
        (fun v => (v - 2) ^ 2))) = some 1
    have hdev : (specFlatDistanceSamples (buildTrajectories data7)).map
        (fun v => (v - 2) ^ 2) = [1, 1] := by
      rw [hsam13]
      norm_num
    rw [hdev, npMean]
    norm_num [Real.sqrt_one]
  · rw [specFlatMin, hsam13]
    simp only [List.foldl_cons, List.foldl_nil]
    rw [min_eq_left (by norm_num : (1 : ℝ) ≤ 3)]
  · rw [specFlatMax, hsam13]
    simp only [List.foldl_cons, List.foldl_nil]
    rw [max_eq_right (by norm_num : (1 : ℝ) ≤ 3)]
  · rw [h1]
    intro hcon
    rcases List.mem_cons.mp hcon with he | hcon2
    · have : (2 : ℝ) = 1 := Option.some.inj he
      norm_num at this
    · rcases List.mem_cons.mp hcon2 with he | hcon3
      · have : (2 : ℝ) = 3 := Option.some.inj he
        norm_num at this
      · exact List.not_mem_nil _ hcon3

lemma list_sum_of_const (l : List ℝ) (c : ℝ) (hall : ∀ x ∈ l, x = c) :
    l.sum = c * l.length := by
  induction l with
  | nil => simp
  | cons a rest ih =>
      rw [List.sum_cons, hall a (List.mem_cons_self a rest),
        ih (fun x hx => hall x (List.mem_cons_of_mem a hx)), List.length_cons]
      push_cast
      ring

lemma npMean_const (l : List ℝ) (c : ℝ) (hne : l ≠ []) (hall : ∀ x ∈ l, x = c) :
    npMean l = some c := by
  rw [npMean, if_neg (by simpa using hne), list_sum_of_const l c hall]
  have hlen : (l.length : ℝ) ≠ 0 := by
    simp only [ne_eq, Nat.cast_eq_zero, List.length_eq_zero]
    exact hne
  rw [mul_div_assoc, div_self hlen, mul_one]

/-- C7 (amended): the script's only distance statistic is the per-frame mean
over agents of the distance from origin; when every recorded position has
Euclidean norm exactly `radius` (and there is at least one agent), every
entry of that series equals `radius` exactly. -/
theorem mean_distance_constant_on_sphere (d : SimulationData)
    (h1 : 1 ≤ d.parameters.num_birds)
    (hr : 0 ≤ d.parameters.radius)
    (hwf : ∀ fr ∈ d.frames, fr.birds.length = d.parameters.num_birds)
    (hsph : ∀ fr ∈ d.frames, ∀ b ∈ fr.birds,
      b.position.x ^ 2 + b.position.y ^ 2 + b.position.z ^ 2 =
        d.parameters.radius ^ 2) :
    mean_distance (buildTrajectories d) =
      List.replicate d.frames.length (some d.parameters.radius) := by
  have hdist : ∀ f fr, d.frames.get? f = some fr → ∀ a, a < d.parameters.num_birds →
      distanceFromOrigin (buildTrajectories d) a f = d.parameters.radius := by
    intro f fr hf a ha
    have hmem : fr ∈ d.frames := List.get?_mem hf
    have hlen : fr.birds.length = d.parameters.num_birds := hwf fr hmem
    have hb : a < fr.birds.length := by omega
    have hbv : fr.birds.get? a = some (fr.birds.get ⟨a, hb⟩) := List.get?_eq_get hb
    have hbmem : fr.birds.get ⟨a, hb⟩ ∈ fr.birds := List.get_mem _ _ _
    rw [distanceFromOrigin, build_x, build_y, build_z,
      channelAt_of_get? d (fun b => b.position.x) a f fr _ hf hbv,
      channelAt_of_get? d (fun b => b.position.y) a f fr _ hf hbv,
      channelAt_of_get? d (fun b => b.position.z) a f fr _ hf hbv,
      hsph fr hmem _ hbmem, Real.sqrt_sq hr]
  rw [mean_distance]
  apply List.eq_replicate.mpr
  refine ⟨by simp [buildTrajectories], fun o ho => ?_⟩
  rw [List.mem_map] at ho
  obtain ⟨f, hf, rfl⟩ := ho
  rw [List.mem_range] at hf
  have hf' : f < d.frames.length := hf
  obtain ⟨fr, hfr⟩ : ∃ fr, d.frames.get? f = some fr :=
    ⟨_, List.get?_eq_get hf'⟩
  apply npMean_const
  · simp only [ne_eq, List.map_eq_nil_iff, List.range_eq_nil]
    show ¬ d.parameters.num_birds = 0
    omega
  · intro x hx
    rw [List.mem_map] at hx
    obtain ⟨a, ha, rfl⟩ := hx
    rw [List.mem_range] at ha
    exact hdist f fr hfr a ha

/-- One bird on a sphere of radius 5, at position (5, 0, 0). -/
def data7w : SimulationData :=
  ⟨⟨1, 5, 1, 1, 1, 0, 1⟩, [⟨0, 0, [⟨⟨5, 0, 0⟩, ⟨0, 0, 0⟩⟩]⟩]⟩

theorem mean_distance_constant_on_sphere_witness :
    (1 ≤ data7w.parameters.num_birds ∧ (0 : ℝ) ≤ data7w.parameters.radius) ∧
    mean_distance (buildTrajectories data7w) =
      List.replicate data7w.frames.length (some data7w.parameters.radius) := by
  have h1 : 1 ≤ data7w.parameters.num_birds := by decide
  have hr : (0 : ℝ) ≤ data7w.parameters.radius := by norm_num [data7w]
  have hwf : ∀ fr ∈ data7w.frames, fr.birds.length = data7w.parameters.num_birds := by
    intro fr hfr
    have he : fr = ⟨0, 0, [⟨⟨5, 0, 0⟩, ⟨0, 0, 0⟩⟩]⟩ := by
      simpa [data7w] using hfr
    rw [he]
    rfl
  have hsph : ∀ fr ∈ data7w.frames, ∀ b ∈ fr.birds,
      b.position.x ^ 2 + b.position.y ^ 2 + b.position.z ^ 2 =
        data7w.parameters.radius ^ 2 := by
    intro fr hfr b hb
    have he : fr = ⟨0, 0, [⟨⟨5, 0, 0⟩, ⟨0, 0, 0⟩⟩]⟩ := by
      simpa [data7w] using hfr
    rw [he] at hb
    have hbe : b = ⟨⟨5, 0, 0⟩, ⟨0, 0, 0⟩⟩ := by
      simpa using hb
    rw [hbe]
    norm_num [data7w]
  exact ⟨⟨h1, hr⟩, mean_distance_constant_on_sphere data7w h1 hr hwf hsph⟩

/-- C8: for every non-empty frame sequence and stride `k ≥ 1`, the sampler
returns exactly the frames at indices 0, k, 2k, … not exceeding the last
index, in order (`ceil(len / k)` of them), and always includes frame 0. -/
theorem frame_sampler_stride_indices (k : ℕ) (l : List Frame)
    (hk : 1 ≤ k) (hl : l ≠ []) :
    (sliceStep k l).length = (l.length - 1) / k + 1 ∧
    (∀ j : ℕ, (sliceStep k l).get? j = l.get? (j * k)) ∧
    (sliceStep k l).get? 0 = l.get? 0 ∧
    sliceStep k l ≠ [] := by
  refine ⟨sliceStep_length k l hk hl, sliceStep_get? k l hk hl, ?_, ?_⟩
  · rw [sliceStep_get? k l hk hl 0, Nat.zero_mul]
  · intro hcon
    have hlen := sliceStep_length k l hk hl
    rw [hcon] at hlen
    simp at hlen

/-- A 23-frame sequence: frame `j` carries step and timestamp `j`. -/
def frame23 (j : ℕ) : Frame := ⟨j, j, []⟩

def frames23 : List Frame := (List.range 23).map frame23

def data23 : SimulationData := ⟨⟨3, 1, 1, 1, 1, 0, 23⟩, frames23⟩

theorem frame_sampler_stride_indices_witness :
    ((sliceStep 5 frames23).length = (frames23.length - 1) / 5 + 1 ∧
     (∀ j : ℕ, (sliceStep 5 frames23).get? j = frames23.get? (j * 5)) ∧
     (sliceStep 5 frames23).get? 0 = frames23.get? 0 ∧
     sliceStep 5 frames23 ≠ []) ∧
    sampleFrames data23 =
      [frame23 0, frame23 5, frame23 10, frame23 15, frame23 20] ∧
    (sampleFrames data23).length = 5 := by
  refine ⟨frame_sampler_stride_indices 5 frames23 (by norm_num) ?_, rfl, rfl⟩
  intro hcon
  have : (23 : ℕ) = 0 := by
    simpa [frames23] using congrArg List.length hcon
  norm_num at this
